import Mathlib

/-!
Shallow embedding of the `raycast-relay` Cloudflare worker (`src/index.ts`):
an OpenAI-compatible relay in front of the Raycast AI backend.

Modelling conventions:
* Vendor transport chunks are `List Char`.  The source decodes each chunk
  with a `TextDecoder` in `stream := true` mode, so byte-level chunk splits
  behave exactly like character-level splits of the decoded text.
* The external `JSON.parse` builtin is a parameter
  `J : String → Option RaycastSSEData`; `none` models a parse exception.
* The external `uuidv4` and `Date.now` builtins are parameters `u : Nat → String`
  and `t : Nat → Nat`, indexed by how many times they have been called during
  the response (the source calls them once per emitted chunk).
-/

namespace RaycastRelay

/-- JS `String.prototype.trim` whitespace (the ASCII part, which is all the
relay's inputs use). -/
def isJsWhitespace (c : Char) : Bool :=
  c = ' ' || c = '\t' || c = '\n' || c = '\r' || c = '\x0b' || c = '\x0c'

/-- JS `trim`: drop whitespace from both ends of a character buffer. -/
def trimChars (l : List Char) : List Char :=
  ((l.dropWhile isJsWhitespace).reverse.dropWhile isJsWhitespace).reverse

/-- Splits a character buffer at `'\n'`: the complete (newline-terminated)
lines, and the leftover after the last newline.  This is the effect of the
`while ((newlineIndex = buffer.indexOf("\n")) >= 0)` loop of
`handleStreamingResponse` (each iteration consumes one complete line), and
`splitAll` below is JS `split("\n")`. -/
def splitNl : List Char → List (List Char) × List Char
  | [] => ([], [])
  | c :: cs =>
    let p := splitNl cs
    if c = '\n' then ([] :: p.1, p.2)
    else
      match p.1 with
      | l :: ls => ((c :: l) :: ls, p.2)
      | [] => ([], c :: p.2)

/-- JS `String.prototype.split` at `"\n"`: every segment, including the final
segment after the last newline. -/
def splitAll (l : List Char) : List (List Char) :=
  (splitNl l).1 ++ [(splitNl l).2]

/-- A decoded vendor SSE event payload (`RaycastSSEData` in `types.ts`).
`finish_reason` distinguishes the JS `undefined` (field absent: outer `none`)
from JSON `null` (`some none`) and from a string (`some (some r)`), because
the source distinguishes all three. -/
structure RaycastSSEData where
  text : Option String
  finish_reason : Option (Option String)
deriving DecidableEq, Repr

/-- One OpenAI `chat.completion.chunk` object as built at lines 322-337 of
`index.ts`, with its single `choices[0]` entry flattened into the fields
`index`, `deltaContent`, `finish_reason`. -/
structure OpenAIChunk where
  id : String
  object : String
  created : Nat
  model : String
  index : Nat
  deltaContent : String
  finish_reason : Option String
deriving DecidableEq, Repr

/-- One item written to the streaming response body: a chunk line
`data: {...}\n\n`, or the terminal `data: [DONE]\n\n` sentinel. -/
inductive StreamItem
  | chunk (c : OpenAIChunk)
  | done
deriving DecidableEq, Repr

/-- Lines 313-321 of `index.ts`: trim the raw line, keep it only if it starts
with `data:`, strip the prefix, trim again, drop a defensive `[DONE]`, and
hand the rest to `JSON.parse` (the parameter `J`; `none` = parse error,
which the source logs and skips). -/
def lineEvent (J : String → Option RaycastSSEData) (rawLine : List Char) :
    Option RaycastSSEData :=
  let line := trimChars rawLine
  if line.take 5 == "data:".data then
    let dataContent := trimChars (line.drop 5)
    if dataContent == "[DONE]".data then none
    else J dataContent.asString
  else none

/-- The `jsonData.finish_reason !== null && jsonData.finish_reason !== undefined`
test at lines 341-344 that sets `streamFinished`. -/
def eventFin (e : RaycastSSEData) : Bool :=
  match e.finish_reason with
  | some (some _) => true
  | _ => false

/-- Whether a raw line carries a stream-terminating event. -/
def lineFin (J : String → Option RaycastSSEData) (rawLine : List Char) : Bool :=
  match lineEvent J rawLine with
  | some e => eventFin e
  | none => false

/-- The chunk object built for one parsed event (lines 322-337): fresh uuid
and timestamp (call index `k`), the caller's requested model id,
`delta.content = jsonData.text || ""`, and
`finish_reason = jsonData.finish_reason === undefined ? null : jsonData.finish_reason`. -/
def mkChunk (u : Nat → String) (t : Nat → Nat) (modelId : String) (k : Nat)
    (jsonData : RaycastSSEData) : OpenAIChunk :=
  { id := "chatcmpl-" ++ u k
    object := "chat.completion.chunk"
    created := t k
    model := modelId
    index := 0
    deltaContent := jsonData.text.getD ""
    finish_reason :=
      match jsonData.finish_reason with
      | none => none
      | some r => r }

/-- The inner `while (buffer.indexOf("\n") >= 0)` body applied to the complete
lines of the current buffer.  Note that, as in the source, the loop keeps
processing the remaining buffered lines even after `streamFinished` has been
set: the flag is only consulted by the outer read loop.  Returns the emitted
chunks, the `streamFinished` flag, and the next uuid/time call index. -/
def processLines (J : String → Option RaycastSSEData) (u : Nat → String)
    (t : Nat → Nat) (modelId : String) :
    List (List Char) → Nat → List OpenAIChunk × Bool × Nat
  | [], k => ([], false, k)
  | line :: rest, k =>
    match lineEvent J line with
    | some jsonData =>
      let pr := processLines J u t modelId rest (k + 1)
      (mkChunk u t modelId k jsonData :: pr.1, eventFin jsonData || pr.2.1, pr.2.2)
    | none => processLines J u t modelId rest k

/-- The outer `while (!streamFinished)` read loop of `handleStreamingResponse`
(lines 302-357): read the next transport chunk, append it to the buffer,
process every complete line, and stop reading once `streamFinished` is set or
the transport is exhausted (`done`), discarding any unterminated leftover. -/
def streamLoop (J : String → Option RaycastSSEData) (u : Nat → String)
    (t : Nat → Nat) (modelId : String) :
    List (List Char) → List Char → Nat → List OpenAIChunk
  | [], _, _ => []
  | v :: vs, buf, k =>
    let lr := splitNl (buf ++ v)
    let plr := processLines J u t modelId lr.1 k
    plr.1 ++ (if plr.2.1 then [] else streamLoop J u t modelId vs lr.2 plr.2.2)

/-- `handleStreamingResponse` for a present response body: the sequence of
items written to the client stream — the converted chunks, then the final
`data: [DONE]` marker (line 359, written on every non-exceptional path). -/
def handleStreamingResponse (J : String → Option RaycastSSEData)
    (u : Nat → String) (t : Nat → Nat) (modelId : String)
    (vendorChunks : List (List Char)) : List StreamItem :=
  (streamLoop J u t modelId vendorChunks [] 0).map StreamItem.chunk ++ [StreamItem.done]

/-- `parseSSEResponse` (lines 163-176): fold over `responseText.split("\n")`
(all segments, including the final unterminated one), keep lines that start
with `data:` (untrimmed, unlike the streaming path), parse
`line.substring(5).trim()`, and append `jsonData.text` when it is truthy. -/
def parseSSEResponse (J : String → Option RaycastSSEData)
    (responseText : String) : String :=
  (splitAll responseText.data).foldl
    (fun fullText line =>
      if line.take 5 == "data:".data then
        match J (trimChars (line.drop 5)).asString with
        | some jsonData =>
          match jsonData.text with
          | some txt => if txt ≠ "" then fullText ++ txt else fullText
          | none => fullText
        | none => fullText
      else fullText)
    ""

/-- The non-streaming OpenAI completion object (lines 391-424), with the
single `choices[0]` entry and the zeroed usage block flattened into fields. -/
structure OpenAICompletion where
  id : String
  object : String
  created : Nat
  model : String
  role : String
  content : String
  refusal : Option String
  finish_reason : String
  prompt_tokens : Nat
  completion_tokens : Nat
  total_tokens : Nat
  service_tier : String
deriving DecidableEq, Repr

/-- `handleNonStreamingResponse` (lines 384-432): drain the vendor body to
text, aggregate it with `parseSSEResponse`, and wrap it in an OpenAI
completion object with one fresh uuid and timestamp and a constant
`finish_reason: "stop"`. -/
def handleNonStreamingResponse (J : String → Option RaycastSSEData)
    (uuid : String) (now : Nat) (modelId : String) (responseText : String) :
    OpenAICompletion :=
  { id := "chatcmpl-" ++ uuid
    object := "chat.completion"
    created := now
    model := modelId
    role := "assistant"
    content := parseSSEResponse J responseText
    refusal := none
    finish_reason := "stop"
    prompt_tokens := 0
    completion_tokens := 0
    total_tokens := 0
    service_tier := "default" }

/-- One OpenAI-shaped inbound message (`OpenAIMessage` in `types.ts`);
the source only ever inspects `role` and `content`. -/
structure OpenAIMessage where
  role : String
  content : String
deriving DecidableEq, Repr

/-- The `content: { text: ... }` payload of a vendor message. -/
structure RaycastContent where
  text : String
deriving DecidableEq, Repr

/-- One vendor message (`RaycastMessage` in `types.ts`). -/
structure RaycastMessage where
  author : String
  content : RaycastContent
deriving DecidableEq, Repr

/-- `convertMessages` (lines 138-158): `forEach` with index over the inbound
messages, starting from the default instruction `"markdown"`; the message at
index 0 with role `system` becomes the instruction (and is not forwarded),
`user`/`assistant` messages are pushed in order, everything else is ignored.
Returns `(raycastMessages, systemInstruction)`. -/
def convertMessages (openaiMessages : List OpenAIMessage) :
    List RaycastMessage × String :=
  openaiMessages.enum.foldl
    (fun acc im =>
      if im.2.role = "system" ∧ im.1 = 0 then (acc.1, im.2.content)
      else if im.2.role = "user" ∨ im.2.role = "assistant" then
        (acc.1 ++ [{ author := im.2.role, content := { text := im.2.content } }], acc.2)
      else acc)
    ([], "markdown")

/-- The catalog entry value (`ModelInfo` in `types.ts`). -/
structure ModelInfo where
  provider : String
  model : String
deriving DecidableEq, Repr

/-- One raw model record from the vendor models endpoint
(`RaycastRawModelData`), restricted to the fields `fetchModels` reads. -/
structure RaycastRawModelData where
  id : String
  model : String
  provider : String
  requires_better_ai : Bool
  availability : String
deriving DecidableEq, Repr

/-- The worker environment (`Env` interface); optional variables are `Option`. -/
structure Env where
  RAYCAST_BEARER_TOKEN : String
  API_KEY : Option String
  ADVANCED : Option String
  INCLUDE_DEPRECATED : Option String
deriving DecidableEq, Repr

/-- The filtered model catalog: a JS `Map` in the source, modelled as an
insertion-ordered association list. -/
abbrev Catalog := List (String × ModelInfo)

/-- JS `Map.prototype.set`: overwrite the value of an existing key in place,
otherwise append the new entry. -/
def mapSet (m : Catalog) (k : String) (v : ModelInfo) : Catalog :=
  if m.any (fun p => p.1 == k) then
    m.map (fun p => if p.1 == k then (k, v) else p)
  else m ++ [(k, v)]

/-- JS `Map.prototype.has`. -/
def catalogHas (m : Catalog) (k : String) : Bool :=
  m.any (fun p => p.1 == k)

/-- JS `Map.prototype.get`. -/
def catalogGet (m : Catalog) (k : String) : Option ModelInfo :=
  (m.find? (fun p => p.1 == k)).map (fun p => p.2)

def DEFAULT_MODEL_ID : String := "openai-gpt-4o-mini"

def DEFAULT_PROVIDER : String := "openai"

def DEFAULT_INTERNAL_MODEL : String := "gpt-4o-mini"

/-- `env.ADVANCED?.toLowerCase() !== "false"` (line 57). -/
def showAdvanced (env : Env) : Bool :=
  !(env.ADVANCED.map String.toLower == some "false")

/-- `env.INCLUDE_DEPRECATED?.toLowerCase() !== "false"` (line 58). -/
def includeDeprecated (env : Env) : Bool :=
  !(env.INCLUDE_DEPRECATED.map String.toLower == some "false")

/-- The filtering loop of `fetchModels` (lines 56-83) applied to a
successfully fetched and structurally valid model list: build the catalog
map, keeping a model iff
`(showAdvanced || !isPremium) && (includeDeprecated || !isDeprecated)`. -/
def filterModels (env : Env) (fetched : List RaycastRawModelData) : Catalog :=
  fetched.foldl
    (fun models modelData =>
      if (showAdvanced env || !modelData.requires_better_ai) &&
          (includeDeprecated env || !(modelData.availability == "deprecated"))
      then mapSet models modelData.id { provider := modelData.provider, model := modelData.model }
      else models)
    []

/-- `getProviderInfo` (lines 124-133): catalog entry if present, otherwise the
hardcoded fallback entry. -/
def getProviderInfo (modelId : String) (models : Catalog) : ModelInfo :=
  match catalogGet models modelId with
  | some info => info
  | none => { provider := DEFAULT_PROVIDER, model := DEFAULT_INTERNAL_MODEL }

/-- The vendor chat request body (`RaycastChatRequest`), lines 233-245. -/
structure RaycastChatRequest where
  model : String
  provider : String
  messages : List RaycastMessage
  system_instruction : String
  temperature : Rat
  additional_system_instructions : String
  debug : Bool
  locale : String
  source : String
  thread_id : String
  tools : List String
deriving DecidableEq, Repr

/-- The parsed inbound chat request body (`OpenAIChatRequest`), restricted to
the fields the handler destructures; `none` models an absent field so the
destructuring defaults apply. -/
structure OpenAIChatRequestBody where
  messages : List OpenAIMessage
  model : Option String
  temperature : Option Rat
  stream : Option Bool
deriving DecidableEq, Repr

/-- What `handleChatCompletions` does up to (and including) dispatching the
vendor chat call: either an early error response, or the vendor request it
sends together with the effective stream flag. -/
inductive ChatStep
  | errorResponse (status : Nat) (errType : String) (message : String)
  | vendorCall (req : RaycastChatRequest) (stream : Bool)
deriving DecidableEq, Repr

/-- `handleChatCompletions` (lines 181-251) up to the vendor fetch, with the
already-fetched catalog passed in (`fetchModels` is the upstream HTTP call)
and `threadUuid` the fresh `uuidv4()` thread id.  Mirrors the source order:
empty-messages check, empty-catalog check, `getProviderInfo`, hard 400 when
the requested id is not in the catalog, then the vendor request. -/
def handleChatCompletionsPre (body : OpenAIChatRequestBody) (models : Catalog)
    (threadUuid : String) : ChatStep :=
  let requestedModelId := body.model.getD DEFAULT_MODEL_ID
  if body.messages.isEmpty then
    .errorResponse 400 "invalid_request_error" "Missing or invalid 'messages' field"
  else if models.isEmpty then
    .errorResponse 500 "server_error" "No models available. Check server configuration."
  else
    let info := getProviderInfo requestedModelId models
    if !catalogHas models requestedModelId then
      .errorResponse 400 "invalid_request_error"
        ("Model \"" ++ requestedModelId ++ "\" not available. Using default: " ++ DEFAULT_MODEL_ID)
    else
      .vendorCall
        { model := info.model
          provider := info.provider
          messages := (convertMessages body.messages).1
          system_instruction := (convertMessages body.messages).2
          temperature := body.temperature.getD (1 / 2 : Rat)
          additional_system_instructions := ""
          debug := false
          locale := "en-US"
          source := "ai_chat"
          thread_id := threadUuid
          tools := [] }
        (body.stream.getD false)

/-- The vendor chat endpoint's HTTP response as the relay sees it: the `ok`
flag, status code, and body (a list of transport chunks; the non-streaming
path drains them all into one text). -/
structure VendorHttpResponse where
  ok : Bool
  status : Nat
  body : List (List Char)

/-- What the client receives once the vendor chat response is in hand. -/
inductive VendorResult
  | errorResponse (status : Nat) (errType : String) (message : String)
  | streamOut (items : List StreamItem)
  | completion (c : OpenAICompletion)
deriving DecidableEq, Repr

/-- Lines 255-268 of `handleChatCompletions`: a non-ok vendor response is
turned into a 502 `bad_gateway` whose message carries only the vendor status
(the vendor body is logged, never forwarded), before any reassembly; an ok
response is handed to the streaming or non-streaming handler. -/
def handleVendorResponse (J : String → Option RaycastSSEData)
    (u : Nat → String) (t : Nat → Nat) (resp : VendorHttpResponse)
    (stream : Bool) (requestedModelId : String) : VendorResult :=
  if !resp.ok then
    .errorResponse 502 "bad_gateway" ("Raycast API error (" ++ toString resp.status ++ ")")
  else if stream then
    .streamOut (handleStreamingResponse J u t requestedModelId resp.body)
  else
    .completion (handleNonStreamingResponse J (u 0) (t 0) requestedModelId
      resp.body.flatten.asString)

/-- Models the JS `JSON.parse` builtin on the concrete event payloads used by
the specification's scenarios (it returns the decoded object for exactly
these JSON texts and a parse failure for everything else fed to it in the
concrete inputs below). -/
def jsonLit : String → Option RaycastSSEData := fun s =>
  if s = "\x7b\"text\":\"Hel\"\x7d" then some { text := some "Hel", finish_reason := none }
  else if s = "\x7b\"text\":\"lo\"\x7d" then some { text := some "lo", finish_reason := none }
  else if s = "\x7b\"text\":\"X\"\x7d" then some { text := some "X", finish_reason := none }
  else if s = "\x7b\"finish_reason\":\"stop\"\x7d" then
    some { text := none, finish_reason := some (some "stop") }
  else none

/-- A concrete uuid supply: `uuidv4` returns pairwise distinct values, here
the call index rendered as a string. -/
def uNum : Nat → String := fun k => toString k

/-- A concrete clock. -/
def tZero : Nat → Nat := fun _ => 0

/-- Scenario B's vendor stream as three separate transport chunks. -/
def scenB : List (List Char) :=
  ["data: \x7b\"text\":\"Hel\"\x7d\n".data,
   "data: \x7b\"text\":\"lo\"\x7d\n".data,
   "data: \x7b\"finish_reason\":\"stop\"\x7d\n".data]

/-- Scenario B's vendor stream as one drained text. -/
def scenBText : String :=
  "data: \x7b\"text\":\"Hel\"\x7d\ndata: \x7b\"text\":\"lo\"\x7d\ndata: \x7b\"finish_reason\":\"stop\"\x7d\n"

/-- A single transport chunk in which a finish-reason event is followed by a
further `data:` line. -/
def finThenTextChunk : List Char :=
  "data: \x7b\"finish_reason\":\"stop\"\x7d\ndata: \x7b\"text\":\"X\"\x7d\n".data

/-- A single transport chunk carrying two text events and no finish reason. -/
def twoTextChunk : List Char :=
  "data: \x7b\"text\":\"Hel\"\x7d\ndata: \x7b\"text\":\"lo\"\x7d\n".data

/-! ### Specification-side definitions

These follow the wording of the specification (or give an independent
characterisation of the loop above) and are compared with the source
translations by the theorems below. -/

/-- The chunk sequence for a list of parsed events: one chunk per event, in
order, with consecutive uuid/time call indices starting at `k`. -/
def chunksFor (u : Nat → String) (t : Nat → Nat) (modelId : String) :
    Nat → List RaycastSSEData → List OpenAIChunk
  | _, [] => []
  | k, e :: es => mkChunk u t modelId k e :: chunksFor u t modelId (k + 1) es

/-- The raw complete lines the streaming loop actually consumes for a given
delivery of transport chunks: all complete lines of each successive chunk's
buffer, stopping (after finishing the current buffer) once some consumed line
carried a non-null finish reason; the final unterminated leftover is never
consumed. -/
def processedLines (J : String → Option RaycastSSEData) :
    List (List Char) → List Char → List (List Char)
  | [], _ => []
  | v :: vs, buf =>
    let lr := splitNl (buf ++ v)
    lr.1 ++ (if lr.1.any (lineFin J) then [] else processedLines J vs lr.2)

/-- The vendor events the streaming loop successfully parses, in arrival
order. -/
def deliveredEvents (J : String → Option RaycastSSEData)
    (vendorChunks : List (List Char)) : List RaycastSSEData :=
  (processedLines J vendorChunks []).filterMap (lineEvent J)

/-- The successfully parsed `data:` events of a drained (non-streaming)
response text, in arrival order. -/
def sseEvents (J : String → Option RaycastSSEData) (responseText : String) :
    List RaycastSSEData :=
  (splitAll responseText.data).filterMap
    (fun line =>
      if line.take 5 == "data:".data then J (trimChars (line.drop 5)).asString
      else none)

/-- Specification wording for the non-streaming aggregate: the concatenation,
in arrival order, of every parsed event's `text` field, an absent `text`
contributing the empty string. -/
def parseSSEResponseSpec (J : String → Option RaycastSSEData)
    (responseText : String) : String :=
  (sseEvents J responseText).foldl (fun acc e => acc ++ e.text.getD "") ""

/-- Specification wording: the order-preserving 1:1 image of the messages
with role `user` or `assistant`. -/
def vendorImage (msgs : List OpenAIMessage) : List RaycastMessage :=
  (msgs.filter (fun m => m.role = "user" || m.role = "assistant")).map
    (fun m => { author := m.role, content := { text := m.content } })

/-- Specification wording for the request translation: a leading system
message becomes the instruction and is excluded; otherwise the instruction
defaults to the literal `"markdown"`; the remaining messages are filtered to
`user`/`assistant` and mapped 1:1. -/
def convertMessagesSpec (msgs : List OpenAIMessage) :
    List RaycastMessage × String :=
  match msgs with
  | [] => ([], "markdown")
  | m0 :: rest =>
    if m0.role = "system" then (vendorImage rest, m0.content)
    else (vendorImage msgs, "markdown")

/-- Specification wording for the catalog filter: a model is retained iff
`(showPremium OR NOT requiresPremium) AND (includeDeprecated OR NOT isDeprecated)`,
where `requiresPremium` is the `requires_better_ai` flag and `isDeprecated`
means `availability = "deprecated"`. -/
def retainedSpec (env : Env) (d : RaycastRawModelData) : Prop :=
  (showAdvanced env = true ∨ d.requires_better_ai = false) ∧
    (includeDeprecated env = true ∨ d.availability ≠ "deprecated")

instance (env : Env) (d : RaycastRawModelData) : Decidable (retainedSpec env d) := by
  unfold retainedSpec; infer_instance

/-! ### Helper lemmas about the stream reassembler -/

theorem chunksFor_append (u : Nat → String) (t : Nat → Nat) (m : String)
    (k : Nat) (a b : List RaycastSSEData) :
    chunksFor u t m k (a ++ b) =
      chunksFor u t m k a ++ chunksFor u t m (k + a.length) b := by
  induction a generalizing k with
  | nil => simp [chunksFor]
  | cons e es ih =>
    have harith : k + 1 + es.length = k + (es.length + 1) := by omega
    simp only [List.cons_append, chunksFor, List.length_cons, List.append_eq]
    rw [ih, harith]

theorem processLines_eq (J : String → Option RaycastSSEData) (u : Nat → String)
    (t : Nat → Nat) (m : String) (lines : List (List Char)) (k : Nat) :
    processLines J u t m lines k =
      (chunksFor u t m k (lines.filterMap (lineEvent J)),
       lines.any (lineFin J),
       k + (lines.filterMap (lineEvent J)).length) := by
  induction lines generalizing k with
  | nil => simp [processLines, chunksFor]
  | cons line rest ih =>
    simp only [processLines, List.filterMap_cons, List.any_cons]
    cases h : lineEvent J line with
    | none =>
      simp only [ih, lineFin, h]
      rfl
    | some e =>
      simp only [ih, lineFin, h, chunksFor, List.length_cons, Prod.mk.injEq]
      refine ⟨trivial, trivial, by omega⟩

theorem streamLoop_eq (J : String → Option RaycastSSEData) (u : Nat → String)
    (t : Nat → Nat) (m : String) (d : List (List Char)) (buf : List Char)
    (k : Nat) :
    streamLoop J u t m d buf k =
      chunksFor u t m k ((processedLines J d buf).filterMap (lineEvent J)) := by
  induction d generalizing buf k with
  | nil => simp [streamLoop, processedLines, chunksFor]
  | cons v vs ih =>
    simp only [streamLoop, processedLines, processLines_eq]
    cases hfin : (splitNl (buf ++ v)).1.any (lineFin J) with
    | true => simp [hfin, chunksFor_append]
    | false => simp [hfin, ih, chunksFor_append]

/-- The continuation of a line split across an append boundary: the pending
leftover `r` is prepended to the first complete line of the second part. -/
def mergeLines (r : List Char) : List (List Char) → List (List Char)
  | [] => []
  | h :: tl => (r ++ h) :: tl

theorem splitNl_cons (c : Char) (cs : List Char) :
    splitNl (c :: cs) =
      if c = '\n' then ([] :: (splitNl cs).1, (splitNl cs).2)
      else
        match (splitNl cs).1 with
        | l :: ls => ((c :: l) :: ls, (splitNl cs).2)
        | [] => ([], c :: (splitNl cs).2) := rfl

theorem splitNl_noNl (l : List Char) (h : ∀ c ∈ l, c ≠ '\n') :
    splitNl l = ([], l) := by
  induction l with
  | nil => rfl
  | cons c cs ih =>
    have hc : c ≠ '\n' := h c (List.mem_cons_self c cs)
    have ihh := ih (fun x hx => h x (List.mem_cons_of_mem c hx))
    rw [splitNl_cons, ihh]
    simp [hc]

theorem splitNl_snd_noNl (l : List Char) : ∀ c ∈ (splitNl l).2, c ≠ '\n' := by
  induction l with
  | nil => intro c hc; simp [splitNl] at hc
  | cons c cs ih =>
    intro x hx
    rw [splitNl_cons] at hx
    by_cases hc : c = '\n'
    · simp only [hc, if_pos rfl] at hx
      exact ih x hx
    · simp only [hc, if_neg, ite_false] at hx
      cases hp : (splitNl cs).1 with
      | cons l ls =>
        rw [hp] at hx
        exact ih x hx
      | nil =>
        rw [hp] at hx
        simp only at hx
        rcases List.mem_cons.mp hx with h1 | h2
        · rw [h1]; exact hc
        · exact ih x h2

theorem splitNl_append_fst (a b : List Char) :
    (splitNl (a ++ b)).1 =
      (splitNl a).1 ++ mergeLines (splitNl a).2 (splitNl b).1 := by
  induction a with
  | nil =>
    cases h : (splitNl b).1 with
    | nil => simp [splitNl, mergeLines, h]
    | cons x xs => simp [splitNl, mergeLines, h]
  | cons c a' ih =>
    by_cases hc : c = '\n'
    · subst hc
      rw [List.cons_append, splitNl_cons, splitNl_cons]
      simp [ih]
    · rw [List.cons_append, splitNl_cons, splitNl_cons]
      simp only [hc, ite_false]
      cases hp : (splitNl a').1 with
      | cons l ls =>
        have : (splitNl (a' ++ b)).1 =
            l :: (ls ++ mergeLines (splitNl a').2 (splitNl b).1) := by
          rw [ih, hp, List.cons_append]
        rw [this]
        simp [hp]
      | nil =>
        have hM : (splitNl (a' ++ b)).1 = mergeLines (splitNl a').2 (splitNl b).1 := by
          rw [ih, hp, List.nil_append]
        cases hb : (splitNl b).1 with
        | nil =>
          rw [hM, hb]
          simp [mergeLines, hp]
        | cons h tl =>
          rw [hM, hb]
          simp [mergeLines, hp, List.cons_append]

theorem dropLast_append_ne {α : Type _} (a b : List α) (hb : b ≠ []) :
    (a ++ b).dropLast = a ++ b.dropLast := by
  cases b with
  | nil => exact absurd rfl hb
  | cons x xs => exact List.dropLast_append_cons

/-- Under the hypothesis that only the last complete line of the (joined)
vendor byte stream may carry a finish reason, the streaming loop consumes
exactly the complete lines of the joined stream, however it was delivered. -/
theorem processedLines_total (J : String → Option RaycastSSEData)
    (d : List (List Char)) :
    ∀ buf : List Char, (∀ c ∈ buf, c ≠ '\n') →
      (∀ l ∈ ((splitNl (buf ++ d.flatten)).1).dropLast, lineFin J l = false) →
      processedLines J d buf = (splitNl (buf ++ d.flatten)).1 := by
  induction d with
  | nil =>
    intro buf hb _
    rw [processedLines]
    simp [splitNl_noNl buf hb]
  | cons v vs ih =>
    intro buf hb hfin
    have hsnd := splitNl_snd_noNl (buf ++ v)
    have htot : (splitNl (buf ++ (v :: vs).flatten)).1 =
        (splitNl (buf ++ v)).1 ++ (splitNl ((splitNl (buf ++ v)).2 ++ vs.flatten)).1 := by
      have h1 : buf ++ (v :: vs).flatten = (buf ++ v) ++ vs.flatten := by
        simp [List.flatten_cons]
      rw [h1, splitNl_append_fst, splitNl_append_fst ((splitNl (buf ++ v)).2) vs.flatten,
        splitNl_noNl _ hsnd, List.nil_append]
    rw [htot] at hfin ⊢
    rw [processedLines]
    cases hA : (splitNl (buf ++ v)).1.any (lineFin J) with
    | false =>
      simp only [if_neg, Bool.false_eq_true, ite_false]
      congr 1
      apply ih (splitNl (buf ++ v)).2 hsnd
      intro l hl
      cases hS : (splitNl ((splitNl (buf ++ v)).2 ++ vs.flatten)).1 with
      | nil => rw [hS] at hl; simp at hl
      | cons s ss =>
        apply hfin
        rw [hS] at hl ⊢
        rw [dropLast_append_ne _ _ (by simp)]
        exact List.mem_append_right _ hl
    | true =>
      have hSnil : (splitNl ((splitNl (buf ++ v)).2 ++ vs.flatten)).1 = [] := by
        by_contra hne
        obtain ⟨l, hl, hlf⟩ := List.any_eq_true.mp hA
        have : l ∈ ((splitNl (buf ++ v)).1 ++
            (splitNl ((splitNl (buf ++ v)).2 ++ vs.flatten)).1).dropLast := by
          rw [dropLast_append_ne _ _ hne]
          exact List.mem_append_left _ hl
        rw [hfin l this] at hlf
        exact Bool.false_ne_true hlf
      rw [hSnil]
      simp

theorem mem_chunksFor {u : Nat → String} {t : Nat → Nat} {m : String}
    {c : OpenAIChunk} {es : List RaycastSSEData} :
    ∀ {k : Nat}, c ∈ chunksFor u t m k es → ∃ j e, c = mkChunk u t m j e := by
  induction es with
  | nil => intro k h; simp [chunksFor] at h
  | cons e es ih =>
    intro k h
    rw [chunksFor] at h
    rcases List.mem_cons.mp h with h1 | h2
    · exact ⟨k, e, h1⟩
    · exact ih h2

theorem parseSSE_fold_aux (J : String → Option RaycastSSEData)
    (lines : List (List Char)) :
    ∀ acc : String,
      lines.foldl
        (fun fullText line =>
          if line.take 5 == "data:".data then
            match J (trimChars (line.drop 5)).asString with
            | some jsonData =>
              match jsonData.text with
              | some txt => if txt ≠ "" then fullText ++ txt else fullText
              | none => fullText
            | none => fullText
          else fullText) acc =
      (lines.filterMap
          (fun line =>
            if line.take 5 == "data:".data then
              J (trimChars (line.drop 5)).asString
            else none)).foldl
        (fun a e => a ++ e.text.getD "") acc := by
  induction lines with
  | nil => intro acc; rfl
  | cons line rest ih =>
    intro acc
    simp only [List.foldl_cons, List.filterMap_cons]
    by_cases hd : (line.take 5 == "data:".data) = true
    · rw [if_pos hd, if_pos hd]
      cases hJ : J (trimChars (line.drop 5)).asString with
      | none => exact ih acc
      | some e =>
        simp only [List.foldl_cons]
        rw [ih]
        cases ht : e.text with
        | none => simp [String.append_empty]
        | some txt =>
          by_cases htxt : txt = ""
          · subst htxt
            simp [String.append_empty]
          · simp [htxt]
    · rw [if_neg hd, if_neg hd]
      exact ih acc

theorem convertMessages_tail (msgs : List OpenAIMessage) :
    ∀ (n : Nat) (acc : List RaycastMessage × String),
      (msgs.enumFrom (n + 1)).foldl
          (fun acc im =>
            if im.2.role = "system" ∧ im.1 = 0 then (acc.1, im.2.content)
            else if im.2.role = "user" ∨ im.2.role = "assistant" then
              (acc.1 ++ [{ author := im.2.role, content := { text := im.2.content } }], acc.2)
            else acc) acc =
        (acc.1 ++ vendorImage msgs, acc.2) := by
  induction msgs with
  | nil => intro n acc; simp [vendorImage]
  | cons m ms ih =>
    intro n acc
    rw [List.enumFrom_cons, List.foldl_cons]
    by_cases hs : m.role = "system"
    · have h1 : ¬(m.role = "system" ∧ n + 1 = 0) := by
        intro h; exact Nat.succ_ne_zero n h.2
      have h2 : ¬(m.role = "user" ∨ m.role = "assistant") := by
        intro h; rcases h with h | h <;> rw [hs] at h <;> exact absurd h (by decide)
      rw [if_neg h1, if_neg h2, ih]
      simp [vendorImage, hs]
    · by_cases hu : m.role = "user" ∨ m.role = "assistant"
      · have h1 : ¬(m.role = "system" ∧ n + 1 = 0) := fun h => hs h.1
        rw [if_neg h1, if_pos hu, ih]
        have hf : (m :: ms).filter (fun x => x.role = "user" || x.role = "assistant") =
            m :: ms.filter (fun x => x.role = "user" || x.role = "assistant") := by
          rw [List.filter_cons, if_pos (by simp [hu])]
        simp [vendorImage, hf]
      · have h1 : ¬(m.role = "system" ∧ n + 1 = 0) := fun h => hs h.1
        rw [if_neg h1, if_neg hu, ih]
        have hf : (m :: ms).filter (fun x => x.role = "user" || x.role = "assistant") =
            ms.filter (fun x => x.role = "user" || x.role = "assistant") := by
          rw [List.filter_cons, if_neg (by simp [not_or.mp hu])]
        simp [vendorImage, hf]

theorem catalogHas_mapSet (m : Catalog) (k' : String) (v : ModelInfo)
    (k : String) : catalogHas (mapSet m k' v) k = (catalogHas m k || (k' == k)) := by
  rw [mapSet]
  by_cases hc : m.any (fun p => p.1 == k') = true
  · rw [if_pos hc]
    unfold catalogHas
    rw [List.any_map]
    have hpt : ∀ p : String × ModelInfo,
        (((if p.1 == k' then (k', v) else p)).1 == k) = (p.1 == k) := by
      intro p
      by_cases h : p.1 = k'
      · subst h; simp
      · rw [if_neg (by simpa using h)]
    simp only [Function.comp_def, hpt]
    by_cases hk : k' = k
    · subst hk
      simp [hc]
    · have : (k' == k) = false := by simpa using hk
      simp [this]
  · rw [if_neg hc]
    unfold catalogHas
    simp [List.any_append]

theorem catalogHas_filterFold (env : Env) (l : List RaycastRawModelData)
    (k : String) :
    ∀ m : Catalog,
      catalogHas
          (l.foldl
            (fun models modelData =>
              if (showAdvanced env || !modelData.requires_better_ai) &&
                  (includeDeprecated env || !(modelData.availability == "deprecated"))
              then mapSet models modelData.id
                { provider := modelData.provider, model := modelData.model }
              else models) m) k =
        (catalogHas m k ||
          l.any (fun d =>
            (d.id == k) &&
              ((showAdvanced env || !d.requires_better_ai) &&
                (includeDeprecated env || !(d.availability == "deprecated"))))) := by
  induction l with
  | nil => intro m; simp
  | cons d ds ih =>
    intro m
    rw [List.foldl_cons, ih, List.any_cons]
    by_cases hret :
        ((showAdvanced env || !d.requires_better_ai) &&
          (includeDeprecated env || !(d.availability == "deprecated"))) = true
    · rw [if_pos hret, catalogHas_mapSet]
      cases h1 : catalogHas m k <;> cases hik : (d.id == k) <;> simp [hret, hik]
    · rw [if_neg hret]
      have hrf : ((showAdvanced env || !d.requires_better_ai) &&
          (includeDeprecated env || !(d.availability == "deprecated"))) = false := by
        cases h : ((showAdvanced env || !d.requires_better_ai) &&
            (includeDeprecated env || !(d.availability == "deprecated")))
        · rfl
        · exact absurd h hret
      simp [hrf]

/-! ### Claim theorems -/

/-- C5: for every vendor response body, the non-streaming completion content
equals the concatenation, in arrival order, of the `text` field of every
successfully parsed `data:` event, events without a `text` field contributing
the empty string; for Scenario B's three events the content is `"Hello"`. -/
theorem c5_nonstreaming_aggregate :
    (∀ (J : String → Option RaycastSSEData) (s : String),
      parseSSEResponse J s = parseSSEResponseSpec J s) ∧
    (∀ (J : String → Option RaycastSSEData) (uuid : String) (now : Nat)
        (m s : String),
      (handleNonStreamingResponse J uuid now m s).content = parseSSEResponseSpec J s) ∧
    parseSSEResponse jsonLit scenBText = "Hello" := by
  have key : ∀ (J : String → Option RaycastSSEData) (s : String),
      parseSSEResponse J s = parseSSEResponseSpec J s := by
    intro J s
    rw [parseSSEResponse, parseSSEResponseSpec, sseEvents]
    exact parseSSE_fold_aux J (splitAll s.data) ""
  exact ⟨key, fun J uuid now m s => key J s, by decide⟩

/-- C6: translation extracts a leading system message (position 0 only) as
the system instruction, defaulting to the literal `"markdown"`, and maps the
remaining `user`/`assistant` messages 1:1 in order, silently dropping
non-leading system messages and all other roles; Scenario A included. -/
theorem c6_convert_messages :
    (∀ msgs : List OpenAIMessage, convertMessages msgs = convertMessagesSpec msgs) ∧
    convertMessages [{ role := "system", content := "Be terse" },
        { role := "user", content := "hi" }] =
      ([{ author := "user", content := { text := "hi" } }], "Be terse") := by
  refine ⟨?_, by decide⟩
  intro msgs
  cases msgs with
  | nil => rfl
  | cons m0 rest =>
    rw [convertMessages, List.enum_cons, List.foldl_cons,
      show List.enumFrom 1 rest = List.enumFrom (0 + 1) rest from rfl,
      convertMessages_tail rest 0]
    by_cases hs : m0.role = "system"
    · rw [if_pos ⟨hs, rfl⟩]
      simp [convertMessagesSpec, hs]
    · by_cases hu : m0.role = "user" ∨ m0.role = "assistant"
      · rw [if_neg (fun h => hs h.1), if_pos hu]
        have hns : ¬(m0.role = "system") := hs
        have hf : vendorImage (m0 :: rest) =
            { author := m0.role, content := { text := m0.content } } :: vendorImage rest := by
          rw [vendorImage, vendorImage, List.filter_cons, if_pos (by simp [hu])]
          rfl
        simp [convertMessagesSpec, hns, hf]
      · rw [if_neg (fun h => hs h.1), if_neg hu]
        have hf : vendorImage (m0 :: rest) = vendorImage rest := by
          rw [vendorImage, vendorImage, List.filter_cons,
            if_neg (by simp [not_or.mp hu])]
        simp [convertMessagesSpec, hs, hf]

/-- C7: the two filter gates default to true unless explicitly disabled, and
for every filter configuration a model id appears in the resolved catalog iff
some fetched model with that id satisfies
`(showPremium OR NOT requiresPremium) AND (includeDeprecated OR NOT isDeprecated)`. -/
theorem c7_catalog_filter :
    (∀ env : Env, env.ADVANCED = none → showAdvanced env = true) ∧
    (∀ env : Env, env.INCLUDE_DEPRECATED = none → includeDeprecated env = true) ∧
    (∀ (env : Env) (fetched : List RaycastRawModelData) (modelId : String),
      catalogHas (filterModels env fetched) modelId = true ↔
        ∃ d ∈ fetched, d.id = modelId ∧ retainedSpec env d) := by
  refine ⟨?_, ?_, ?_⟩
  · intro env h; rw [showAdvanced, h]; rfl
  · intro env h; rw [includeDeprecated, h]; rfl
  · intro env fetched modelId
    rw [filterModels, catalogHas_filterFold]
    have h0 : catalogHas [] modelId = false := rfl
    rw [h0, Bool.false_or, List.any_eq_true]
    simp only [retainedSpec, Bool.and_eq_true, Bool.or_eq_true, beq_iff_eq,
      Bool.not_eq_true', beq_eq_false_iff_ne, ne_eq]

/-- C7 witness: a concrete premium model retained under the default
configuration. -/
theorem c7_catalog_filter_witness :
    ∃ d ∈ [({ id := "m1", model := "im1", provider := "p", requires_better_ai := true, availability := "deprecated" } : RaycastRawModelData)],
      d.id = "m1" ∧
        retainedSpec { RAYCAST_BEARER_TOKEN := "tok", API_KEY := none, ADVANCED := none, INCLUDE_DEPRECATED := none } d :=
  (c7_catalog_filter.2.2
    { RAYCAST_BEARER_TOKEN := "tok", API_KEY := none, ADVANCED := none, INCLUDE_DEPRECATED := none }
    [{ id := "m1", model := "im1", provider := "p", requires_better_ai := true, availability := "deprecated" }] "m1").mp (by decide)

/-- C8: when the catalog is non-empty but lacks the requested model id, the
handler answers 400 `invalid_request_error` with a message naming the default
fallback model, and issues no vendor chat call (so the resolver's hardcoded
fallback entry is never used on this path). -/
theorem c8_unknown_model_400 (body : OpenAIChatRequestBody) (models : Catalog)
    (threadUuid : String)
    (hmsg : body.messages.isEmpty = false)
    (hcat : models.isEmpty = false)
    (habs : catalogHas models (body.model.getD DEFAULT_MODEL_ID) = false) :
    handleChatCompletionsPre body models threadUuid =
      ChatStep.errorResponse 400 "invalid_request_error"
        ("Model \"" ++ body.model.getD DEFAULT_MODEL_ID ++
          "\" not available. Using default: " ++ DEFAULT_MODEL_ID) ∧
    ∀ (req : RaycastChatRequest) (st : Bool),
      handleChatCompletionsPre body models threadUuid ≠ ChatStep.vendorCall req st := by
  have h : handleChatCompletionsPre body models threadUuid =
      ChatStep.errorResponse 400 "invalid_request_error"
        ("Model \"" ++ body.model.getD DEFAULT_MODEL_ID ++
          "\" not available. Using default: " ++ DEFAULT_MODEL_ID) := by
    rw [handleChatCompletionsPre]
    simp [hmsg, hcat, habs]
  exact ⟨h, fun req st hne => by rw [h] at hne; exact ChatStep.noConfusion hne⟩

/-- C8 witness: a concrete request for a model id absent from a non-empty
catalog. -/
theorem c8_unknown_model_400_witness :
    handleChatCompletionsPre { messages := [{ role := "user", content := "hi" }], model := some "foo", temperature := none, stream := none } [("bar", { provider := "p", model := "m" })] "u" =
      ChatStep.errorResponse 400 "invalid_request_error"
        ("Model \"" ++ (some "foo").getD DEFAULT_MODEL_ID ++
          "\" not available. Using default: " ++ DEFAULT_MODEL_ID) :=
  (c8_unknown_model_400 _ _ _ (by decide) (by decide) (by decide)).1

/-- C9: a non-ok vendor chat response yields 502 `bad_gateway` before any
reassembly, with a client-visible body that depends only on the vendor status
code, never on the vendor error body. -/
theorem c9_vendor_error_502 (J : String → Option RaycastSSEData)
    (u : Nat → String) (t : Nat → Nat) (resp : VendorHttpResponse)
    (stream : Bool) (modelId : String) (hok : resp.ok = false) :
    handleVendorResponse J u t resp stream modelId =
      VendorResult.errorResponse 502 "bad_gateway"
        ("Raycast API error (" ++ toString resp.status ++ ")") ∧
    ∀ body' : List (List Char),
      handleVendorResponse J u t { resp with body := body' } stream modelId =
        handleVendorResponse J u t resp stream modelId := by
  constructor
  · rw [handleVendorResponse]
    simp [hok]
  · intro body'
    rw [handleVendorResponse, handleVendorResponse]
    simp [hok]

/-- C9 witness: a concrete vendor 500 with a body that is not echoed. -/
theorem c9_vendor_error_502_witness :
    handleVendorResponse jsonLit uNum tZero { ok := false, status := 500, body := ["secret vendor error".data] } true "m" =
      VendorResult.errorResponse 502 "bad_gateway"
        ("Raycast API error (" ++ toString (500 : Nat) ++ ")") :=
  (c9_vendor_error_502 jsonLit uNum tZero
    { ok := false, status := 500, body := ["secret vendor error".data] } true "m" rfl).1

/-- C10: bytes after the last newline of the vendor stream are discarded by
the streaming path when the transport ends, while the non-streaming parser
does process the final unterminated line, so the two modes can yield
different total text for the same vendor byte stream. -/
theorem c10_trailing_line_modes :
    (∀ (J : String → Option RaycastSSEData) (u : Nat → String) (t : Nat → Nat)
        (m : String) (s tl : List Char), (∀ c ∈ tl, c ≠ '\n') →
      handleStreamingResponse J u t m [s ++ tl] =
        handleStreamingResponse J u t m [s]) ∧
    handleStreamingResponse jsonLit uNum tZero "m" ["data: \x7b\"text\":\"X\"\x7d".data] =
      [StreamItem.done] ∧
    parseSSEResponse jsonLit "data: \x7b\"text\":\"X\"\x7d" = "X" := by
  refine ⟨?_, by decide, by decide⟩
  intro J u t m s tl htl
  have hone : ∀ x : List Char, streamLoop J u t m [x] [] 0 =
      (processLines J u t m (splitNl x).1 0).1 := by
    intro x
    rw [streamLoop]
    cases hf : (processLines J u t m (splitNl ([] ++ x)).1 0).2.1 <;>
      simp [hf, streamLoop]
  have hlines : (splitNl (s ++ tl)).1 = (splitNl s).1 := by
    rw [splitNl_append_fst, splitNl_noNl tl htl]
    simp [mergeLines]
  rw [handleStreamingResponse, handleStreamingResponse, hone, hone, hlines]

/-- C10 witness: appending newline-free trailing bytes to a transport chunk
does not change the streamed output. -/
theorem c10_trailing_line_modes_witness :
    handleStreamingResponse jsonLit uNum tZero "m"
        ["data: \x7b\"text\":\"Hel\"\x7d\n".data ++ "data: \x7b\"text\":\"lo\"\x7d".data] =
      handleStreamingResponse jsonLit uNum tZero "m" ["data: \x7b\"text\":\"Hel\"\x7d\n".data] :=
  c10_trailing_line_modes.1 jsonLit uNum tZero "m" _ _ (by decide)

/-- C1 counterexample: a `data:` line that arrives in the same transport
chunk as (and after) the finish-reason event is still processed, and its
delta chunk is emitted before the terminal sentinel, refuting the claim that
no further vendor events are processed once a non-null finish reason has been
handled. -/
theorem c1_counterexample :
    handleStreamingResponse jsonLit uNum tZero "m" [finThenTextChunk] =
      [StreamItem.chunk { id := "chatcmpl-0", object := "chat.completion.chunk", created := 0, model := "m", index := 0, deltaContent := "", finish_reason := some "stop" },
       StreamItem.chunk { id := "chatcmpl-1", object := "chat.completion.chunk", created := 0, model := "m", index := 0, deltaContent := "X", finish_reason := none },
       StreamItem.done] := by decide

/-- C1 (amended): once a finish-reason-bearing event has been handled, no
further transport chunks are read, so no event from a later transport chunk
is processed or emitted; complete lines already buffered from the same
transport chunk are, however, still processed before the sentinel. -/
theorem c1_finish_stops_reading (J : String → Option RaycastSSEData)
    (u : Nat → String) (t : Nat → Nat) (m : String) (v : List Char)
    (vs : List (List Char)) (hfin : (splitNl v).1.any (lineFin J) = true) :
    handleStreamingResponse J u t m (v :: vs) =
      handleStreamingResponse J u t m [v] := by
  have h2 : (processLines J u t m (splitNl v).1 0).2.1 = true := by
    rw [processLines_eq]; exact hfin
  have hsl : ∀ ws : List (List Char), streamLoop J u t m (v :: ws) [] 0 =
      (processLines J u t m (splitNl v).1 0).1 := by
    intro ws
    rw [streamLoop]
    simp [h2]
  rw [handleStreamingResponse, handleStreamingResponse, hsl vs, hsl []]

/-- C1 witness: with the finish event in the first transport chunk, a second
transport chunk contributes nothing. -/
theorem c1_finish_stops_reading_witness :
    handleStreamingResponse jsonLit uNum tZero "m"
        ["data: \x7b\"finish_reason\":\"stop\"\x7d\n".data, "data: \x7b\"text\":\"X\"\x7d\n".data] =
      handleStreamingResponse jsonLit uNum tZero "m"
        ["data: \x7b\"finish_reason\":\"stop\"\x7d\n".data] :=
  c1_finish_stops_reading jsonLit uNum tZero "m" _ _ (by decide)

/-- C2 counterexample: with the pairwise-distinct uuid supply that `uuidv4`
provides, two chunks of one streaming response carry different synthetic ids,
refuting the claim that all chunks of a response share one id. -/
theorem c2_counterexample :
    handleStreamingResponse jsonLit uNum tZero "m" [twoTextChunk] =
      [StreamItem.chunk { id := "chatcmpl-0", object := "chat.completion.chunk", created := 0, model := "m", index := 0, deltaContent := "Hel", finish_reason := none },
       StreamItem.chunk { id := "chatcmpl-1", object := "chat.completion.chunk", created := 0, model := "m", index := 0, deltaContent := "lo", finish_reason := none },
       StreamItem.done] ∧
    ("chatcmpl-0" : String) ≠ "chatcmpl-1" := ⟨by decide, by decide⟩

/-- C2 (amended): every chunk of a streaming response carries a synthetic id
of the form `chatcmpl-<uuid>` with a fresh uuid per chunk (not one id
constant across the response), the caller's requested model id, and the
timestamp taken at its own emission; the non-streaming completion carries the
same three fields with one fresh uuid. -/
theorem c2_chunk_fields :
    (∀ (J : String → Option RaycastSSEData) (u : Nat → String) (t : Nat → Nat)
        (m : String) (d : List (List Char)) (c : OpenAIChunk),
      StreamItem.chunk c ∈ handleStreamingResponse J u t m d →
        c.object = "chat.completion.chunk" ∧ c.model = m ∧
          ∃ k, c.id = "chatcmpl-" ++ u k ∧ c.created = t k) ∧
    (∀ (J : String → Option RaycastSSEData) (uuid : String) (now : Nat)
        (m s : String),
      (handleNonStreamingResponse J uuid now m s).id = "chatcmpl-" ++ uuid ∧
        (handleNonStreamingResponse J uuid now m s).object = "chat.completion" ∧
        (handleNonStreamingResponse J uuid now m s).model = m ∧
        (handleNonStreamingResponse J uuid now m s).created = now) := by
  constructor
  · intro J u t m d c hmem
    rw [handleStreamingResponse] at hmem
    rcases List.mem_append.mp hmem with h | h
    · simp only [List.mem_map, StreamItem.chunk.injEq] at h
      obtain ⟨a, ha, rfl⟩ := h
      rw [streamLoop_eq] at ha
      obtain ⟨j, e, rfl⟩ := mem_chunksFor ha
      exact ⟨rfl, rfl, j, rfl, rfl⟩
    · simp at h
  · intro J uuid now m s
    exact ⟨rfl, rfl, rfl, rfl⟩

/-- C2 witness: the field shape of a concrete emitted chunk. -/
theorem c2_chunk_fields_witness :
    ({ id := "chatcmpl-0", object := "chat.completion.chunk", created := 0, model := "m", index := 0, deltaContent := "Hel", finish_reason := none } : OpenAIChunk).object = "chat.completion.chunk" ∧
    ({ id := "chatcmpl-0", object := "chat.completion.chunk", created := 0, model := "m", index := 0, deltaContent := "Hel", finish_reason := none } : OpenAIChunk).model = "m" ∧
    ∃ k, ({ id := "chatcmpl-0", object := "chat.completion.chunk", created := 0, model := "m", index := 0, deltaContent := "Hel", finish_reason := none } : OpenAIChunk).id = "chatcmpl-" ++ uNum k ∧
      ({ id := "chatcmpl-0", object := "chat.completion.chunk", created := 0, model := "m", index := 0, deltaContent := "Hel", finish_reason := none } : OpenAIChunk).created = tZero k :=
  c2_chunk_fields.1 jsonLit uNum tZero "m" scenB _ (by decide)

/-- C3 counterexample: on Scenario B's three-event stream the streamed output
has four items (three chunks and the sentinel), not the claimed two content
deltas plus sentinel: the finish-reason event also yields a chunk. -/
theorem c3_counterexample :
    (handleStreamingResponse jsonLit uNum tZero "m" scenB).length = 4 := by decide

/-- C3 (amended): the chunks emitted before the sentinel are exactly one
delta chunk per successfully parsed event — whether or not it has a `text`
field — in arrival order, carrying `content = text or ""` and
`finish_reason` equal to the event's finish reason (null when absent); for
Scenario B: deltas `"Hel"`, `"lo"`, then an empty-content chunk with
`finish_reason "stop"`, then the sentinel. -/
theorem c3_one_chunk_per_event :
    (∀ (J : String → Option RaycastSSEData) (u : Nat → String) (t : Nat → Nat)
        (m : String) (d : List (List Char)),
      handleStreamingResponse J u t m d =
        (chunksFor u t m 0 (deliveredEvents J d)).map StreamItem.chunk ++
          [StreamItem.done]) ∧
    handleStreamingResponse jsonLit uNum tZero "m" scenB =
      [StreamItem.chunk { id := "chatcmpl-0", object := "chat.completion.chunk", created := 0, model := "m", index := 0, deltaContent := "Hel", finish_reason := none },
       StreamItem.chunk { id := "chatcmpl-1", object := "chat.completion.chunk", created := 0, model := "m", index := 0, deltaContent := "lo", finish_reason := none },
       StreamItem.chunk { id := "chatcmpl-2", object := "chat.completion.chunk", created := 0, model := "m", index := 0, deltaContent := "", finish_reason := some "stop" },
       StreamItem.done] := by
  refine ⟨?_, by decide⟩
  intro J u t m d
  rw [handleStreamingResponse, streamLoop_eq, deliveredEvents]

/-- C4 counterexample: the same vendor byte stream split at a different chunk
boundary produces a different streamed output: delivered whole, the event
after the finish reason is still emitted; delivered in two chunks, reading
stops before it. -/
theorem c4_counterexample :
    [finThenTextChunk].flatten =
      ["data: \x7b\"finish_reason\":\"stop\"\x7d\n".data, "data: \x7b\"text\":\"X\"\x7d\n".data].flatten ∧
    handleStreamingResponse jsonLit uNum tZero "m" [finThenTextChunk] ≠
      handleStreamingResponse jsonLit uNum tZero "m"
        ["data: \x7b\"finish_reason\":\"stop\"\x7d\n".data, "data: \x7b\"text\":\"X\"\x7d\n".data] :=
  ⟨by decide, by decide⟩

/-- C4 (amended): chunk-boundary invariance holds for the non-streaming
aggregate unconditionally (it depends only on the drained text), and for the
streaming path whenever no complete line before the last one carries a
finish reason (in particular for every stream that either has no finish event
or ends with it): any two deliveries of the same byte stream then produce the
same parsed events and the same emitted output. -/
theorem c4_split_invariance (J : String → Option RaycastSSEData)
    (u : Nat → String) (t : Nat → Nat) (m : String)
    (d1 d2 : List (List Char)) (hjoin : d1.flatten = d2.flatten)
    (hfin : ∀ l ∈ ((splitNl d1.flatten).1).dropLast, lineFin J l = false) :
    deliveredEvents J d1 = deliveredEvents J d2 ∧
    handleStreamingResponse J u t m d1 = handleStreamingResponse J u t m d2 ∧
    parseSSEResponse J d1.flatten.asString = parseSSEResponse J d2.flatten.asString := by
  have h1 : processedLines J d1 [] = (splitNl d1.flatten).1 :=
    processedLines_total J d1 [] (by simp) (by simpa using hfin)
  have h2 : processedLines J d2 [] = (splitNl d2.flatten).1 :=
    processedLines_total J d2 [] (by simp) (by rw [List.nil_append, ← hjoin]; exact hfin)
  have hev : deliveredEvents J d1 = deliveredEvents J d2 := by
    rw [deliveredEvents, deliveredEvents, h1, h2, hjoin]
  refine ⟨hev, ?_, by rw [hjoin]⟩
  rw [handleStreamingResponse, handleStreamingResponse, streamLoop_eq, streamLoop_eq,
    ← deliveredEvents, ← deliveredEvents, hev]

/-- C4 witness: a finish-free stream delivered whole and split in two yields
the same parsed events. -/
theorem c4_split_invariance_witness :
    deliveredEvents jsonLit [twoTextChunk] =
      deliveredEvents jsonLit
        ["data: \x7b\"text\":\"Hel\"\x7d\n".data, "data: \x7b\"text\":\"lo\"\x7d\n".data] :=
  (c4_split_invariance jsonLit uNum tZero "m" _ _ (by decide) (by decide)).1

end RaycastRelay
